import Mathlib

/-!
Verification model of the snap-assist concurrent task orchestrator and its
streaming retry worker, shallowly embedded from
`src/snap_assist/main_cli.py` and `src/snap_assist/chat_modes.py`.

The embedding has two layers, matching the source:

* the streaming worker `ApiWorker.run` (retry/backoff state machine over a
  chunked streaming HTTP protocol, with cooperative cancellation checked at
  explicit checkpoints), modelled by `runWorker` below; Python floats used
  for backoff delays are modelled exactly by rationals;
* the orchestrator methods of `AppWindow` (generation tokens, the pending
  queue, the running set with concurrency limit 3, the per-mode panels),
  modelled by pure functions on `OrchState`, plus an event step function
  `step` that admits exactly the callbacks a spawned worker thread can
  still deliver.

Cancellation (thread interruption) is modelled by an optional global tick
`cancelAt`: every `isInterruptionRequested()` call in the source consumes
one tick, and the flag reads true from tick `cancelAt` on (interruption
requests are sticky in Qt).
-/

/-! ### The mode table (`chat_modes.py`, `get_chat_modes`) -/

def getChatModes : List (String × String) :=
  [ ("Proofread", "You are a grammar proofreading assistant. Output ONLY the corrected text without any additional comments. Maintain the original text structure and writing style. Respond in the same language as the input (e.g., English US, French):"),
    ("Summarise", "Provide summary in bullet points for the following text:"),
    ("Explain", "Can you explain the following:"),
    ("Rewrite", "You are a writing assistant. Rewrite the text provided by the user to improve phrasing. Output ONLY the rewritten text without additional comments. Respond in the same language as the input (e.g., English US, French):"),
    ("Professional", "You are a writing assistant. Rewrite the text provided by the user to sound more professional. Output ONLY the professional text without additional comments. Respond in the same language as the input (e.g., English US, French):"),
    ("Friendly", "You are a writing assistant. Rewrite the text provided by the user to be more friendly. Output ONLY the friendly text without additional comments. Respond in the same language as the input (e.g., English US, French):"),
    ("Concise", "You are a writing assistant. Rewrite the text provided by the user to be slightly more concise in tone, thus making it just a bit shorter. Do not change the text too much or be too reductive. Output ONLY the concise version without additional comments. Respond in the same language as the input (e.g., English US, French):"),
    ("Fallacy Finder", "I want you to act as a fallacy finder. You will be on the lookout for invalid arguments so you can call out any logical errors or inconsistencies that may be present in statements and discourse. Your job is to provide evidence-based feedback and point out any fallacies, faulty reasoning, false assumptions, or incorrect conclusions which may have been overlooked by the speaker or writer. Text:"),
    ("Answer It", "You are an intelligent assistant. Help user with the query. Query:") ]

/-- Mode names in table iteration order (Python dict iteration order is
insertion order; `AppWindow.__init__` builds one panel per name in this
order). -/
def modeNames : List String := getChatModes.map Prod.fst

/-! ### Streaming worker model (`ApiWorker.run`, main_cli.py lines 53-162) -/

/-- Transient network exceptions caught by the worker (the tuple at lines
128-133: ConnectTimeout, ReadTimeout, ChunkedEncodingError,
ConnectionError). -/
inductive NetErr
  | connectTimeout
  | readTimeout
  | chunkedEncoding
  | connectionError
deriving DecidableEq, Repr

def netErrMsg : NetErr → String
  | .connectTimeout => "ConnectTimeout"
  | .readTimeout => "ReadTimeout"
  | .chunkedEncoding => "ChunkedEncodingError"
  | .connectionError => "ConnectionError"

/-- One line yielded by `response.iter_lines()`: empty (skipped by the
`if line:` test), malformed (not JSON, so `json.loads` raises), or a JSON
record with a `response` chunk and a `done` flag. -/
inductive StreamLine
  | empty
  | malformed
  | record (resp : String) (done : Bool)
deriving DecidableEq, Repr

/-- The HTTP response of one attempt: status code, the optional Retry-After
header, the lines the body yields, and an optional transient network
exception `iter_lines` raises after yielding those lines (a mid-stream
connection failure). -/
structure HttpResponse where
  status : Nat
  retryAfter : Option String
  body : List StreamLine
  bodyErr : Option NetErr
deriving DecidableEq, Repr

/-- What the environment does to the request of a given attempt:
`requests.post` returns a response, raises a transient network exception,
or raises some other `RequestException`. -/
inductive AttemptOutcome
  | response (r : HttpResponse)
  | netError (e : NetErr)
  | requestError (msg : String)

/-- The environment of one worker run: the outcome of each attempt, the
jitter `secure_random.uniform(0, 0.5)` drawn for each attempt, and the
global tick (if any) from which `isInterruptionRequested()` reads true. -/
structure World where
  outcomes : Nat → AttemptOutcome
  jitter : Nat → ℚ
  cancelAt : Option Nat

/-- Signals the worker emits that the orchestrator consumes.  The two chunk
signals `chunk_received` and `chunk_received_with_mode` carry the same
chunk and are emitted together, so one event models both. -/
inductive Ev
  | chunk (s : String)
  | finished
  | errorOccurred (msg : String)
deriving DecidableEq, Repr

def Ev.isErr : Ev → Bool
  | .errorOccurred _ => true
  | _ => false

/-- Events emitted so far, plus the event count at the first check where
interruption was observed (if any). -/
structure Trace where
  events : List Ev
  obs : Option Nat
deriving DecidableEq, Repr

def Trace.emit (tr : Trace) (e : Ev) : Trace :=
  { tr with events := tr.events ++ [e] }

def Trace.observe (tr : Trace) : Trace :=
  { tr with obs := match tr.obs with
      | some k => some k
      | none => some tr.events.length }

/-- The value `QThread.currentThread().isInterruptionRequested()` reads at
tick `t`. -/
def intr (c : Option Nat) (t : Nat) : Bool :=
  match c with
  | none => false
  | some c0 => decide (c0 ≤ t)

/-- `max_retries = 3` (line 68). -/
def maxRetries : Nat := 3

/-- Addition of rationals, written with `mkRat` so the kernel can evaluate
it (`Rat.add` is irreducible); `qadd_eq` below proves it equal to `+`. -/
def qadd (a b : ℚ) : ℚ :=
  mkRat (a.num * b.den + b.num * a.den) (a.den * b.den)

/-- Multiplication of rationals, written with `mkRat` so the kernel can
evaluate it; `qmul_eq` below proves it equal to `*`. -/
def qmul (a b : ℚ) : ℚ :=
  mkRat (a.num * b.num) (a.den * b.den)

/-- Powers of a rational, via `qmul`; `qpow_eq` below proves it equal to
`^`. -/
def qpow (a : ℚ) : Nat → ℚ
  | 0 => 1
  | n+1 => qmul (qpow a n) a

/-- `base_backoff = 1.5` (line 69). -/
def baseBackoff : ℚ := mkRat 3 2

/-- `max_backoff = 10.0` (line 70). -/
def maxBackoff : ℚ := 10

/-- The sleep step in the HTTP retry branch (`step = 0.1`, line 95). -/
def httpSleepStep : ℚ := mkRat 1 10

/-- The sleep step in the network retry branch (`step = 0.2`, line 138). -/
def netSleepStep : ℚ := mkRat 1 5

/-- Numeric value of an all-digit header string (`float(retry_after_hdr)`
for a string passing `isdigit`). -/
def digitsToNat (s : String) : Nat :=
  s.data.foldl (fun a c => a * 10 + (c.toNat - 48)) 0

/-- The Python test `retry_after_hdr and retry_after_hdr.isdigit()`:
non-empty and all digits. -/
def isNumericHeader (h : String) : Bool :=
  !h.data.isEmpty && h.data.all Char.isDigit

/-- The default backoff `min(max_backoff, base_backoff**attempt +
secure_random.uniform(0, 0.5))` (lines 91 and 135); `backoffDelay_eq`
below restates it with the ordinary field operations. -/
def backoffDelay (attempt : Nat) (j : ℚ) : ℚ :=
  min maxBackoff (qadd (qpow baseBackoff attempt) j)

/-- `sleep_secs` in the HTTP retry branch (lines 87-91): the Retry-After
value when the header is present and numeric, the default backoff
otherwise. -/
def httpSleepSecs (retryAfter : Option String) (attempt : Nat) (j : ℚ) : ℚ :=
  match retryAfter with
  | some h => if isNumericHeader h then (digitsToNat h : ℚ) else backoffDelay attempt j
  | none => backoffDelay attempt j

/-- Number of iterations of the sleep loop `while slept < sleep_secs:
time.sleep(step); slept += step` (for a positive `step`): the least `n`
with `secs ≤ n * step`, computed on numerators and denominators so the
kernel can evaluate it; `numIncrements_le_iff` below proves the
least-such-`n` characterisation. -/
def numIncrements (secs step : ℚ) : Nat :=
  (secs.num.toNat * step.den + (secs.den * step.num.toNat) - 1) / (secs.den * step.num.toNat)

/-- The interruptible sleep loop (lines 94-101 and 137-144): before each of
the (up to `n`) sleep increments the interruption flag is checked; a true
reading stops the loop at once.  Returns (cancelled, increments actually
slept, tick after the loop). -/
def sleepLoop (c : Option Nat) : Nat → Nat → Bool × Nat × Nat
  | t, 0 => (false, 0, t)
  | t, n+1 =>
    if intr c t then (true, 0, t+1)
    else
      let r := sleepLoop c (t+1) n
      (r.1, r.2.1 + 1, r.2.2)

/-- How the streaming loop of one attempt ended. -/
inductive StreamRes
  | broke
  | doneOk
  | crashed
  | netFail (e : NetErr)
deriving DecidableEq, Repr

/-- The streaming loop `for line in response.iter_lines()` (lines 110-120):
before each line the interruption flag is checked (a true reading breaks
out), empty lines are skipped, a malformed line makes `json.loads` raise
an exception no handler catches (`crashed`), a record emits its chunk and
breaks when its done flag is true.  If the iterator is exhausted without a
break and the transport had a pending failure, that exception is raised
here (`netFail`). -/
def streamLines (c : Option Nat) (bodyErr : Option NetErr) :
    List StreamLine → Nat → Trace → StreamRes × Trace × Nat
  | [], t, tr =>
    match bodyErr with
    | some e => (.netFail e, tr, t)
    | none => (.doneOk, tr, t)
  | l :: rest, t, tr =>
    if intr c t then (.broke, tr.observe, t+1)
    else
      match l with
      | .empty => streamLines c bodyErr rest (t+1) tr
      | .malformed => (.crashed, tr, t+1)
      | .record resp dn =>
        let tr2 := tr.emit (.chunk resp)
        if dn then (.doneOk, tr2, t+1) else streamLines c bodyErr rest (t+1) tr2

/-- How one iteration of the retry loop ended: a `return` after emitting
`finished` (cancellation paths), a `break` (the caller emits the final
`finished`), an uncaught exception, or `attempt += 1; continue`. -/
inductive AttemptRes
  | finishedEarly
  | breakLoop
  | crash
  | retry
deriving DecidableEq, Repr

structure AttemptOut where
  res : AttemptRes
  tr : Trace
  t : Nat
  made : Nat
deriving Repr

def httpErrMsg (status : Nat) : String :=
  "API request failed: " ++ toString status

/-- The transient-network handler (lines 128-150), reached from a raised
network exception at request time or mid-stream.  Computes the default
backoff, retries with the 0.2 s interruptible sleep when attempts remain
and no interruption is observed, and otherwise surfaces the error (unless
interrupted) and breaks. -/
def netFailStep (w : World) (attempt t : Nat) (tr : Trace) (made : Nat) (e : NetErr) : AttemptOut :=
  let sleepSecs := backoffDelay attempt (w.jitter attempt)
  if attempt < maxRetries then
    if intr w.cancelAt t then
      { res := .breakLoop, tr := tr.observe, t := t + 2, made := made }
    else
      match sleepLoop w.cancelAt (t+1) (numIncrements sleepSecs netSleepStep) with
      | (true, _, tEnd) => { res := .finishedEarly, tr := (tr.observe).emit .finished, t := tEnd, made := made }
      | (false, _, tEnd) => { res := .retry, tr := tr, t := tEnd, made := made }
  else
    if intr w.cancelAt t then
      { res := .breakLoop, tr := tr.observe, t := t + 1, made := made }
    else
      { res := .breakLoop, tr := tr.emit (.errorOccurred ("Network error: " ++ netErrMsg e)), t := t + 1, made := made }

/-- One iteration of the retry loop `while attempt <= max_retries` (lines
73-158): the interruption check at the loop head (lines 74-77), the
request, `raise_for_status` with the retry policy for 429/5xx, immediate
error surfacing for other HTTP error statuses, the streaming loop for
successful responses, and the transient-network handler. -/
def attemptStep (w : World) (attempt t : Nat) (tr : Trace) (made : Nat) : AttemptOut :=
  if intr w.cancelAt t then
    { res := .finishedEarly, tr := (tr.observe).emit .finished, t := t + 1, made := made }
  else
    match w.outcomes attempt with
    | .response r =>
      if 400 ≤ r.status ∧ r.status < 600 then
        if r.status = 429 ∨ (500 ≤ r.status ∧ r.status < 600) then
          if attempt < maxRetries then
            if intr w.cancelAt (t+1) then
              { res := .breakLoop, tr := tr.observe, t := t + 3, made := made + 1 }
            else
              match sleepLoop w.cancelAt (t+2)
                  (numIncrements (httpSleepSecs r.retryAfter attempt (w.jitter attempt)) httpSleepStep) with
              | (true, _, tEnd) => { res := .finishedEarly, tr := (tr.observe).emit .finished, t := tEnd, made := made + 1 }
              | (false, _, tEnd) => { res := .retry, tr := tr, t := tEnd, made := made + 1 }
          else
            if intr w.cancelAt (t+1) then
              { res := .breakLoop, tr := tr.observe, t := t + 2, made := made + 1 }
            else
              { res := .breakLoop, tr := tr.emit (.errorOccurred (httpErrMsg r.status)), t := t + 2, made := made + 1 }
        else
          if intr w.cancelAt (t+1) then
            { res := .breakLoop, tr := tr.observe, t := t + 2, made := made + 1 }
          else
            { res := .breakLoop, tr := tr.emit (.errorOccurred (httpErrMsg r.status)), t := t + 2, made := made + 1 }
      else
        match streamLines w.cancelAt r.bodyErr r.body (t+1) tr with
        | (.broke, tr2, tEnd) => { res := .breakLoop, tr := tr2, t := tEnd, made := made + 1 }
        | (.doneOk, tr2, tEnd) => { res := .breakLoop, tr := tr2, t := tEnd, made := made + 1 }
        | (.crashed, tr2, tEnd) => { res := .crash, tr := tr2, t := tEnd, made := made + 1 }
        | (.netFail e, tr2, tEnd) => netFailStep w attempt tEnd tr2 (made + 1) e
    | .netError e => netFailStep w attempt (t+1) tr (made + 1) e
    | .requestError msg =>
      if intr w.cancelAt (t+1) then
        { res := .breakLoop, tr := tr.observe, t := t + 2, made := made + 1 }
      else
        { res := .breakLoop, tr := tr.emit (.errorOccurred ("API request failed: " ++ msg)), t := t + 2, made := made + 1 }

/-- Result of a whole worker run: the emitted events, the event count at
the first observed interruption (if any), whether the run died with an
uncaught exception (then no terminal event was emitted), and the number of
requests issued. -/
structure RunRes where
  events : List Ev
  obs : Option Nat
  crashed : Bool
  attemptsMade : Nat
deriving DecidableEq, Repr

/-- The retry loop.  The fuel equals `maxRetries + 1 - attempt`, so fuel 0
is the loop condition `attempt <= max_retries` turning false, after which
the final `finished` is emitted (lines 161-162); `retry` only occurs when
`attempt < maxRetries`, so the fuel never actually runs out. -/
def runFrom (w : World) : Nat → Nat → Nat → Trace → Nat → RunRes
  | 0, _, _, tr, made =>
    let tr2 := tr.emit .finished
    { events := tr2.events, obs := tr2.obs, crashed := false, attemptsMade := made }
  | fuel+1, attempt, t, tr, made =>
    let o := attemptStep w attempt t tr made
    match o.res with
    | .finishedEarly => { events := o.tr.events, obs := o.tr.obs, crashed := false, attemptsMade := o.made }
    | .breakLoop =>
      let tr2 := o.tr.emit .finished
      { events := tr2.events, obs := tr2.obs, crashed := false, attemptsMade := o.made }
    | .crash => { events := o.tr.events, obs := o.tr.obs, crashed := true, attemptsMade := o.made }
    | .retry => runFrom w fuel (attempt+1) o.t o.tr o.made

/-- `ApiWorker.run` as a function of its environment. -/
def runWorker (w : World) : RunRes :=
  runFrom w (maxRetries + 1) 0 0 { events := [], obs := none } 0

/-! ### Orchestrator model (`AppWindow`, main_cli.py lines 496-874)

The state gathers the `AppWindow` fields the orchestrator mutates, the
per-panel displayed text (a `ResultPanel` shows one `QTextEdit`), and two
bookkeeping fields that record which spawned worker threads are still
alive (so that the event step function only admits callbacks a real
thread could still deliver): `liveWorkers` for per-mode workers tagged
with the generation their callbacks were bound to, and `liveRefine` for
refine workers, whose callbacks carry no generation tag. -/

/-- Lookup in a Python dict modelled as an association list. -/
def alookup {α : Type} : List (String × α) → String → Option α
  | [], _ => none
  | (k, v) :: rest, key => if k = key then some v else alookup rest key

/-- Dict assignment `d[key] = v`: update in place, else append (Python
dicts keep insertion order). -/
def aset {α : Type} : List (String × α) → String → α → List (String × α)
  | [], key, v => [(key, v)]
  | (k, w) :: rest, key, v =>
    if k = key then (k, v) :: rest else (k, w) :: aset rest key v

/-- Dict removal `d.pop(key, None)`. -/
def aerase {α : Type} : List (String × α) → String → List (String × α)
  | [], _ => []
  | (k, w) :: rest, key => if k = key then rest else (k, w) :: aerase rest key

/-- Addition to a Python set, modelled as a duplicate-free list. -/
def setAdd (l : List String) (m : String) : List String :=
  if m ∈ l then l else l ++ [m]

structure OrchState where
  currentGeneration : Nat
  modeGenerations : List (String × Nat)
  modeResults : List (String × String)
  modeStatus : List (String × String)
  modeErrors : List (String × String)
  pendingModes : List String
  runningModes : List String
  panelText : List (String × String)
  refineText : String
  liveWorkers : List (Nat × String)
  liveRefine : Nat
  mainClipboardText : String
deriving DecidableEq, Repr

/-- Python `str.strip()`: whitespace removed from both ends (written on
the character list so the kernel can evaluate it). -/
def strip (s : String) : String :=
  String.mk (((s.data.dropWhile Char.isWhitespace).reverse.dropWhile Char.isWhitespace).reverse)

/-- `max_concurrent_requests = 3` (line 525). -/
def maxConcurrent : Nat := 3

/-- Displayed text of the panel of a mode (empty `QTextEdit` initially). -/
def panelGet (s : OrchState) (m : String) : String :=
  (alookup s.panelText m).getD ""

/-- `ResultPanel.set_loading(True)` (lines 260-273): the output text is
replaced by `Loading...` when it is blank or a placeholder, otherwise
kept. -/
def loadingText (cur : String) : String :=
  if strip cur = "" ∨ strip cur = "Queued..." ∨ strip cur = "Loading..." then "Loading..." else cur

/-- `ResultPanel.append_text` (lines 290-294): a `Loading...` placeholder
is cleared first, then the chunk is appended. -/
def appendedText (cur c : String) : String :=
  if strip cur = "Loading..." then c else cur ++ c

/-- `AppWindow.start_worker_for_mode` (lines 702-731): mark the mode
running, add it to the running set, put its panel in the loading state,
and spawn a worker thread whose callbacks are bound to `g`. -/
def startWorkerForMode (s : OrchState) (g : Nat) (m : String) : OrchState :=
  let s1 := { s with modeStatus := aset s.modeStatus m "running",
                     runningModes := setAdd s.runningModes m }
  let s2 := if m ∈ modeNames
            then { s1 with panelText := aset s1.panelText m (loadingText (panelGet s1 m)) }
            else s1
  { s2 with liveWorkers := s2.liveWorkers ++ [(g, m)] }

/-- `AppWindow.start_next_in_queue` (lines 694-700): pop the front of the
pending queue and start it under its own generation token (falling back
to `current_generation` when the mode has no token). -/
def startNextInQueue (s : OrchState) : OrchState :=
  match s.pendingModes with
  | [] => s
  | m :: rest =>
    let g := (alookup s.modeGenerations m).getD s.currentGeneration
    startWorkerForMode { s with pendingModes := rest } g m

/-- The loop `for _ in range(initial): self.start_next_in_queue()`. -/
def iterateStart : Nat → OrchState → OrchState
  | 0, s => s
  | n+1, s => iterateStart n (startNextInQueue s)

/-- `AppWindow.run_all_generations` (lines 654-692): with blank clipboard
text, show a notice on the first panel and start nothing; otherwise bump
the generation, request interruption of old threads (they stay alive and
deliver late, generation-filtered callbacks), reset results, errors and
statuses, show `Queued...` on every panel (the effect of `set_text("")`,
`set_loading(False)`, `set_queued()` in sequence), assign every mode the
new generation token, rebuild the pending queue in table order, clear the
running set, and start up to `max_concurrent_requests` modes. -/
def runAllGenerations (s : OrchState) : OrchState :=
  if strip s.mainClipboardText = "" then
    match modeNames with
    | [] => s
    | m0 :: _ => { s with panelText := aset s.panelText m0 "Main text from clipboard is empty." }
  else
    let gen := s.currentGeneration + 1
    let s1 := { s with currentGeneration := gen, modeResults := [], modeErrors := [],
                       modeStatus := modeNames.map (fun m => (m, "queued")) }
    let s2 := modeNames.foldl
      (fun acc m => { acc with panelText := aset acc.panelText m "Queued...",
                               modeGenerations := aset acc.modeGenerations m gen }) s1
    let s3 := { s2 with pendingModes := modeNames, runningModes := [] }
    iterateStart (min maxConcurrent s3.pendingModes.length) s3

/-- `AppWindow.update_panel_text` (lines 733-738): append the chunk to the
panel and to the per-mode recorded result. -/
def updatePanelText (s : OrchState) (m c : String) : OrchState :=
  let s1 := if m ∈ modeNames
            then { s with panelText := aset s.panelText m (appendedText (panelGet s m) c) }
            else s
  { s1 with modeResults := aset s1.modeResults m (((alookup s1.modeResults m).getD "") ++ c) }

/-- `AppWindow.update_panel_text_if_current` (lines 740-743): drop the
chunk unless its generation is the current token of the mode. -/
def updatePanelTextIfCurrent (s : OrchState) (g : Nat) (m c : String) : OrchState :=
  if alookup s.modeGenerations m = some g then updatePanelText s m c else s

/-- `AppWindow.show_panel_error` (lines 745-751): show the message in the
panel, record it, and set status `error`. -/
def showPanelError (s : OrchState) (m msg : String) : OrchState :=
  let s1 := if m ∈ modeNames then { s with panelText := aset s.panelText m msg } else s
  { s1 with modeErrors := aset s1.modeErrors m msg, modeStatus := aset s1.modeStatus m "error" }

/-- `AppWindow.show_panel_error_if_current` (lines 753-756). -/
def showPanelErrorIfCurrent (s : OrchState) (g : Nat) (m msg : String) : OrchState :=
  if alookup s.modeGenerations m = some g then showPanelError s m msg else s

/-- `AppWindow.on_worker_finished` (lines 758-770): mark `done` unless
already `error`, remove the mode from the running set, and start the next
queued mode if any. -/
def onWorkerFinished (s : OrchState) (m : String) : OrchState :=
  let s1 := if alookup s.modeStatus m ≠ some "error"
            then { s with modeStatus := aset s.modeStatus m "done" }
            else s
  let s2 := { s1 with runningModes := s1.runningModes.erase m }
  if s2.pendingModes ≠ [] then startNextInQueue s2 else s2

/-- `AppWindow.on_worker_finished_if_current` (lines 772-781): normal
finish handling for a current generation; for a stale generation, only
the cleanup (remove from the running set, advance the queue). -/
def onWorkerFinishedIfCurrent (s : OrchState) (g : Nat) (m : String) : OrchState :=
  if alookup s.modeGenerations m = some g then
    onWorkerFinished s m
  else
    let s1 := { s with runningModes := s.runningModes.erase m }
    if s1.pendingModes ≠ [] then startNextInQueue s1 else s1

/-- `AppWindow.refresh_mode` (lines 783-828): with blank clipboard text,
show a notice and stop; otherwise assign the mode a fresh generation
token, request interruption of its running thread (it stays alive),
remove any stale queued occurrence, clear its recorded result and error,
reset it to `queued`, and then: if the mode is itself still in the
running set, push it to the front of the queue; else start it at once
when a slot is free, and otherwise push it to the front of the queue. -/
def refreshMode (s : OrchState) (m : String) : OrchState :=
  if strip s.mainClipboardText = "" then
    if m ∈ modeNames
    then { s with panelText := aset s.panelText m "Main text from clipboard is empty." }
    else s
  else
    let gen := s.currentGeneration + 1
    let s1 := { s with currentGeneration := gen, modeGenerations := aset s.modeGenerations m gen }
    let s2 := { s1 with pendingModes := s1.pendingModes.erase m }
    let s3 := { s2 with modeResults := aerase s2.modeResults m,
                        modeErrors := aerase s2.modeErrors m,
                        modeStatus := aset s2.modeStatus m "queued" }
    let s4 := if m ∈ modeNames then { s3 with panelText := aset s3.panelText m "Queued..." } else s3
    if m ∈ s4.runningModes then { s4 with pendingModes := m :: s4.pendingModes }
    else if s4.runningModes.length < maxConcurrent then startWorkerForMode s4 gen m
    else { s4 with pendingModes := m :: s4.pendingModes }

/-- `AppWindow.run_refine_generation` (lines 830-861): with blank
combined text do nothing; otherwise clear the refined-result area, bump
the generation, and spawn a refine worker whose chunk and error callbacks
are connected without any generation guard. -/
def runRefineGeneration (s : OrchState) (txt : String) : OrchState :=
  if strip txt = "" then s
  else
    let s1 := { s with refineText := "" }
    let s2 := { s1 with currentGeneration := s1.currentGeneration + 1 }
    { s2 with liveRefine := s2.liveRefine + 1 }

/-- The chunk callback of a refine worker (line 856): append to the
refined-result area unconditionally. -/
def applyRefineChunk (s : OrchState) (c : String) : OrchState :=
  { s with refineText := s.refineText ++ c }

/-- The error callback of a refine worker (line 857): overwrite the
refined-result area unconditionally. -/
def applyRefineError (s : OrchState) (msg : String) : OrchState :=
  { s with refineText := "Error: " ++ msg }

/-- The events the orchestrator reacts to: the two user operations, the
generation-tagged callbacks of per-mode workers, and the untagged
callbacks of refine workers. -/
inductive OEvent
  | runAll
  | refresh (m : String)
  | chunk (g : Nat) (m c : String)
  | error (g : Nat) (m msg : String)
  | finished (g : Nat) (m : String)
  | refineReq (txt : String)
  | refineChunk (c : String)
  | refineError (msg : String)
  | refineFinished
deriving DecidableEq, Repr

/-- One orchestrator step.  Worker callbacks are admitted only from a
still-alive worker thread: a per-mode callback must match a `(g, m)` pair
in `liveWorkers` (the generation its closures were bound to at spawn
time), and each worker delivers exactly one `finished`, which retires it.
Refresh events only come from existing panels. -/
def step (s : OrchState) : OEvent → Option OrchState
  | .runAll => some (runAllGenerations s)
  | .refresh m => if m ∈ modeNames then some (refreshMode s m) else none
  | .chunk g m c =>
    if (g, m) ∈ s.liveWorkers then some (updatePanelTextIfCurrent s g m c) else none
  | .error g m msg =>
    if (g, m) ∈ s.liveWorkers then some (showPanelErrorIfCurrent s g m msg) else none
  | .finished g m =>
    if (g, m) ∈ s.liveWorkers then
      let s1 := onWorkerFinishedIfCurrent s g m
      some { s1 with liveWorkers := s1.liveWorkers.erase (g, m) }
    else none
  | .refineReq txt => some (runRefineGeneration s txt)
  | .refineChunk c => if 0 < s.liveRefine then some (applyRefineChunk s c) else none
  | .refineError msg => if 0 < s.liveRefine then some (applyRefineError s msg) else none
  | .refineFinished => if 0 < s.liveRefine then some { s with liveRefine := s.liveRefine - 1 } else none

/-- The state right after `AppWindow.__init__` with the given clipboard
text captured at launch. -/
def initState (clip : String) : OrchState :=
  { currentGeneration := 0, modeGenerations := [], modeResults := [], modeStatus := [],
    modeErrors := [], pendingModes := [], runningModes := [], panelText := [],
    refineText := "", liveWorkers := [], liveRefine := 0, mainClipboardText := clip }

/-- Run a sequence of events from the launch state; `none` when some
event is not admissible in its state. -/
def runTrace (clip : String) (evs : List OEvent) : Option OrchState :=
  evs.foldlM step (initState clip)

/-! ### Derived predicates and concrete scenarios used by the claims -/

/-- All events in the list are chunk events. -/
def allChunks (l : List Ev) : Bool :=
  l.all fun e => match e with
    | .chunk _ => true
    | _ => false

/-- The error events of an optional surfaced error message. -/
def optErrEvents : Option String → List Ev
  | none => []
  | some msg => [Ev.errorOccurred msg]

/-- The retry policy of the worker: an attempt is retried only when it
failed with HTTP status 429 or 500-599, or with a transient network error
(at request time, or raised mid-stream by the body iterator). -/
def retryCond : AttemptOutcome → Prop
  | .response r =>
    (400 ≤ r.status ∧ r.status < 600 ∧ (r.status = 429 ∨ 500 ≤ r.status)) ∨
      (¬ (400 ≤ r.status ∧ r.status < 600) ∧ r.bodyErr ≠ none)
  | .netError _ => True
  | .requestError _ => False

/-- The chunks a response body produces, in stream order: empty lines are
skipped, production stops after the first record whose done flag is true,
and a malformed line produces nothing further (the loop dies there). -/
def producedChunks : List StreamLine → List String
  | [] => []
  | .empty :: rest => producedChunks rest
  | .malformed :: _ => []
  | .record resp dn :: rest => resp :: (if dn then [] else producedChunks rest)

/-- A response body with no malformed line. -/
def wellFormedBody (ls : List StreamLine) : Bool :=
  ls.all fun l => match l with
    | .malformed => false
    | _ => true

/-- Scenario for the concurrency-ceiling violation: a second `run_all`
while the first three gen-1 workers are still alive, then their three
stale `finished` events, then the current `finished` of the gen-2
Proofread worker. -/
def overflowTrace : List OEvent :=
  [.runAll, .runAll, .finished 1 "Proofread", .finished 1 "Summarise", .finished 1 "Explain",
   .finished 2 "Proofread"]

/-- Scenario for the stale-finished counterexample: `run_all`, then a
refresh of Proofread while it is running (which queues it at the front),
then the stale `finished` of its old gen-1 worker. -/
def staleFinishTrace : List OEvent :=
  [.runAll, .refresh "Proofread", .finished 1 "Proofread"]

/-- Scenario for the refresh counterexample: `run_all`, then the first
eight modes finish, leaving only `Answer It` running and the queue empty,
then a refresh of `Answer It`. -/
def refreshBusyTrace : List OEvent :=
  [.runAll, .finished 1 "Proofread", .finished 1 "Summarise", .finished 1 "Explain",
   .finished 1 "Rewrite", .finished 1 "Professional", .finished 1 "Friendly",
   .finished 1 "Concise", .finished 1 "Fallacy Finder", .refresh "Answer It"]

/-- A world where every attempt raises a connect timeout. -/
def wNetTimeout : World :=
  { outcomes := fun _ => .netError .connectTimeout, jitter := fun _ => 0, cancelAt := none }

/-- A world whose first request gets HTTP 404 (a non-retryable client
error). -/
def wNotFound : World :=
  { outcomes := fun _ =>
      .response { status := 404, retryAfter := none, body := [], bodyErr := none },
    jitter := fun _ => 0, cancelAt := none }

/-- A world where every request gets HTTP 503 with no Retry-After. -/
def wServerError : World :=
  { outcomes := fun _ =>
      .response { status := 503, retryAfter := none, body := [], bodyErr := none },
    jitter := fun _ => 0, cancelAt := none }

/-- A world where cancellation is requested before the first checkpoint. -/
def wCancelImmediate : World :=
  { outcomes := fun _ => .netError .readTimeout, jitter := fun _ => 0, cancelAt := some 0 }

/-- A world whose first attempt streams the chunk `A` and then fails
mid-stream with a connection error, and whose retry streams `A` to
completion: the consumer sees `A` twice. -/
def wDupStream : World :=
  { outcomes := fun k =>
      if k = 0 then
        .response { status := 200, retryAfter := none, body := [.record "A" false], bodyErr := some .connectionError }
      else
        .response { status := 200, retryAfter := none, body := [.record "A" true], bodyErr := none },
    jitter := fun _ => 0, cancelAt := none }

/-- A world whose response body contains a malformed line after one good
record. -/
def wMalformedLine : World :=
  { outcomes := fun _ =>
      .response { status := 200, retryAfter := none, body := [.record "ok" false, .malformed], bodyErr := none },
    jitter := fun _ => 0, cancelAt := none }

/-- A world with one clean single-chunk response. -/
def wSingleChunk : World :=
  { outcomes := fun _ =>
      .response { status := 200, retryAfter := none, body := [.record "hi" true], bodyErr := none },
    jitter := fun _ => 0, cancelAt := none }

/-! ### Helper lemmas: association lists -/

@[simp] theorem alookup_aset_self {α : Type} (l : List (String × α)) (k : String) (v : α) :
    alookup (aset l k v) k = some v := by
  induction l with
  | nil => simp [aset, alookup]
  | cons kv rest ih =>
    obtain ⟨k0, v0⟩ := kv
    by_cases h : k0 = k <;> simp [aset, alookup, h, ih]

@[simp] theorem alookup_aset_ne {α : Type} (l : List (String × α)) (k k' : String) (v : α)
    (h : k ≠ k') : alookup (aset l k v) k' = alookup l k' := by
  induction l with
  | nil => simp [aset, alookup, h]
  | cons kv rest ih =>
    obtain ⟨k0, v0⟩ := kv
    by_cases h0 : k0 = k
    · subst h0
      simp [aset, alookup, h]
    · simp [aset, alookup, h0, ih]

/-! ### Helper lemmas: the sleep loop -/

theorem sleepLoop_none (t n : Nat) : sleepLoop none t n = (false, n, t + n) := by
  induction n generalizing t with
  | zero => simp [sleepLoop]
  | succ n ih =>
    rw [sleepLoop]
    simp only [intr, Bool.false_eq_true, if_false, ih]
    rw [show t + (n + 1) = t + 1 + n from by omega]

/-- A cancelled sleep loop stopped at the first check that saw the flag:
the flag was down before each of the `k` increments it performed and up at
the check that followed them, so at most the increment in flight when the
request arrived was completed. -/
theorem sleepLoop_cancel_spec (c : Option Nat) :
    ∀ (n t k tEnd : Nat), sleepLoop c t n = (true, k, tEnd) →
      intr c (t + k) = true ∧ ∀ j, j < k → intr c (t + j) = false := by
  intro n
  induction n with
  | zero => intro t k tEnd h; simp [sleepLoop] at h
  | succ n ih =>
    intro t k tEnd h
    rw [sleepLoop] at h
    by_cases hi : intr c t
    · rw [if_pos hi] at h
      injection h with h1 h2
      injection h2 with hk ht
      subst hk
      refine ⟨by simpa using hi, ?_⟩
      intro j hj
      omega
    · rw [if_neg hi] at h
      rcases hsl : sleepLoop c (t+1) n with ⟨b, k0, t0⟩
      simp only [hsl] at h
      injection h with h1 h2
      injection h2 with hk ht
      subst h1
      subst hk
      have spec := ih (t+1) k0 t0 hsl
      simp only [Bool.not_eq_true] at hi
      refine ⟨?_, ?_⟩
      · rw [show t + (k0 + 1) = t + 1 + k0 by omega]
        exact spec.1
      · intro j hj
        cases j with
        | zero => simpa using hi
        | succ j0 =>
          rw [show t + (j0 + 1) = t + 1 + j0 by omega]
          exact spec.2 j0 (by omega)

/-! ### Helper lemmas: rational arithmetic bridges -/

theorem qadd_eq (a b : ℚ) : qadd a b = a + b := (Rat.add_def' a b).symm

theorem qmul_eq (a b : ℚ) : qmul a b = a * b := by
  rw [qmul, Rat.mul_def, Rat.normalize_eq_mkRat]

theorem qpow_eq (a : ℚ) (n : Nat) : qpow a n = a ^ n := by
  induction n with
  | zero => simp [qpow]
  | succ n ih => rw [qpow, qmul_eq, ih, pow_succ]

theorem baseBackoff_eq : baseBackoff = (3/2 : ℚ) := by
  rw [baseBackoff, Rat.mkRat_eq_divInt, Rat.divInt_eq_div]
  norm_num

theorem httpSleepStep_eq : httpSleepStep = (1/10 : ℚ) := by
  rw [httpSleepStep, Rat.mkRat_eq_divInt, Rat.divInt_eq_div]
  norm_num

theorem netSleepStep_eq : netSleepStep = (1/5 : ℚ) := by
  rw [netSleepStep, Rat.mkRat_eq_divInt, Rat.divInt_eq_div]
  norm_num

/-- The backoff delay written with the ordinary field operations of `ℚ`:
`min(10, 1.5 ^ attempt + jitter)`. -/
theorem backoffDelay_eq (a : Nat) (j : ℚ) :
    backoffDelay a j = min (10 : ℚ) ((3/2 : ℚ) ^ a + j) := by
  rw [backoffDelay, qadd_eq, qpow_eq, baseBackoff_eq, maxBackoff]

/-- `numIncrements secs step` is the least `n` with `secs ≤ n * step`:
exactly the number of iterations of the sleep loop `while slept <
sleep_secs`. -/
theorem numIncrements_le_iff (secs step : ℚ) (h0 : 0 ≤ secs) (hs : 0 < step) (m : Nat) :
    numIncrements secs step ≤ m ↔ secs ≤ (m : ℚ) * step := by
  have hp : 0 < step.num := Rat.num_pos.2 hs
  have hnn : 0 ≤ secs.num := Rat.num_nonneg.2 h0
  have hD : 0 < secs.den := secs.pos
  have hq : 0 < step.den := step.pos
  have hptoNat : (step.num.toNat : Int) = step.num := Int.toNat_of_nonneg hp.le
  have hntoNat : (secs.num.toNat : Int) = secs.num := Int.toNat_of_nonneg hnn
  have hdp : 0 < secs.den * step.num.toNat := by
    have h1 : 0 < step.num.toNat := by omega
    positivity
  have nat_side : numIncrements secs step ≤ m ↔
      secs.num.toNat * step.den ≤ m * (secs.den * step.num.toNat) := by
    unfold numIncrements
    rw [← Nat.lt_succ_iff, Nat.div_lt_iff_lt_mul hdp, Nat.succ_mul]
    omega
  have key : secs * (secs.den : ℚ) = (secs.num : ℚ) :=
    (eq_div_iff (by positivity)).1 (Rat.num_div_den secs).symm
  have key2 : step * (step.den : ℚ) = (step.num : ℚ) :=
    (eq_div_iff (by positivity)).1 (Rat.num_div_den step).symm
  have E1 : ((secs.num.toNat * step.den : Nat) : ℚ) = secs * ((secs.den : ℚ) * step.den) := by
    push_cast
    rw [show ((secs.num.toNat : ℚ)) = ((secs.num : ℚ)) from by exact_mod_cast hntoNat, ← key]
    ring
  have E2 : ((m * (secs.den * step.num.toNat) : Nat) : ℚ)
      = ((m : ℚ) * step) * ((secs.den : ℚ) * step.den) := by
    push_cast
    rw [show ((step.num.toNat : ℚ)) = ((step.num : ℚ)) from by exact_mod_cast hptoNat, ← key2]
    ring
  rw [nat_side, ← Nat.cast_le (α := ℚ), E1, E2,
    mul_le_mul_right (show (0:ℚ) < (secs.den : ℚ) * step.den from by positivity)]

/-- The total time slept by an uncancelled sleep loop is at least the
requested delay and overshoots it by less than one step. -/
theorem numIncrements_total (secs step : ℚ) (h0 : 0 ≤ secs) (hs : 0 < step) :
    secs ≤ (numIncrements secs step : ℚ) * step ∧
      ((numIncrements secs step : ℚ)) * step < secs + step := by
  constructor
  · exact (numIncrements_le_iff secs step h0 hs (numIncrements secs step)).1 le_rfl
  · rcases Nat.eq_zero_or_pos (numIncrements secs step) with hz | hpos
    · rw [hz]
      push_cast
      nlinarith
    · have hmin : ¬ numIncrements secs step ≤ numIncrements secs step - 1 := by omega
      have := (numIncrements_le_iff secs step h0 hs (numIncrements secs step - 1)).not.1 hmin
      push_neg at this
      have hcast : ((numIncrements secs step - 1 : Nat) : ℚ)
          = (numIncrements secs step : ℚ) - 1 := by
        have : (1 : Nat) ≤ numIncrements secs step := hpos
        push_cast [this]
        ring
      rw [hcast] at this
      nlinarith [this]

/-- An all-digit Retry-After header is honoured exactly: the sleep loop in
0.1-second steps totals exactly the header value. -/
theorem numIncrements_exact_retry_after (n : Nat) :
    ((numIncrements (n : ℚ) httpSleepStep : ℚ)) * httpSleepStep = (n : ℚ) := by
  have hnum : ((n : ℚ)).num = (n : Int) := Rat.num_natCast n
  have hden : ((n : ℚ)).den = 1 := Rat.den_natCast n
  have hstep : numIncrements (n : ℚ) httpSleepStep = 10 * n := by
    unfold numIncrements
    rw [hnum, hden]
    simp [httpSleepStep, mkRat, Rat.normalize]
    omega
  rw [hstep, httpSleepStep_eq]
  push_cast
  ring

/-! ### Helper lemmas: traces and the streaming loop -/

@[simp] theorem Trace.emit_events (tr : Trace) (e : Ev) :
    (tr.emit e).events = tr.events ++ [e] := rfl

@[simp] theorem Trace.emit_obs (tr : Trace) (e : Ev) : (tr.emit e).obs = tr.obs := rfl

@[simp] theorem Trace.observe_events (tr : Trace) : (tr.observe).events = tr.events := rfl

theorem Trace.observe_obs (tr : Trace) (h : tr.obs = none) :
    (tr.observe).obs = some tr.events.length := by
  simp [Trace.observe, h]

theorem streamLines_spec (c : Option Nat) (be : Option NetErr) :
    ∀ (ls : List StreamLine) (t : Nat) (tr : Trace) (res : StreamRes) (tr2 : Trace) (t2 : Nat),
      tr.obs = none → streamLines c be ls t tr = (res, tr2, t2) →
      (∃ cs : List String, tr2.events = tr.events ++ cs.map Ev.chunk) ∧
      (res = .broke → tr2.obs = some tr2.events.length) ∧
      (res ≠ .broke → tr2.obs = none) ∧
      (∀ e, res = .netFail e → be = some e) := by
  intro ls
  induction ls with
  | nil =>
    intro t tr res tr2 t2 hobs h
    rw [streamLines.eq_def] at h
    dsimp only at h
    cases hbe : be with
    | some e =>
      rw [hbe] at h
      dsimp only at h
      injection h with h1 h2
      injection h2 with h2 h3
      subst h1; subst h2
      refine ⟨⟨[], by simp⟩, by simp, fun _ => hobs, ?_⟩
      intro e2 he
      injection he with he
      subst he
      rfl
    | none =>
      rw [hbe] at h
      dsimp only at h
      injection h with h1 h2
      injection h2 with h2 h3
      subst h1; subst h2
      exact ⟨⟨[], by simp⟩, by simp, fun _ => hobs, fun e2 he => by cases he⟩
  | cons l rest ih =>
    intro t tr res tr2 t2 hobs h
    rw [streamLines.eq_def] at h
    dsimp only at h
    by_cases hi : intr c t
    · rw [if_pos hi] at h
      injection h with h1 h2
      injection h2 with h2 h3
      subst h1; subst h2
      refine ⟨⟨[], by simp⟩, fun _ => ?_, fun hne => absurd rfl hne, fun e2 he => by cases he⟩
      simp [Trace.observe_obs tr hobs]
    · rw [if_neg hi] at h
      cases l with
      | empty => exact ih (t+1) tr res tr2 t2 hobs h
      | malformed =>
        injection h with h1 h2
        injection h2 with h2 h3
        subst h1; subst h2
        exact ⟨⟨[], by simp⟩, by simp, fun _ => hobs, fun e2 he => by cases he⟩
      | record resp dn =>
        cases dn with
        | true =>
          simp only [if_pos] at h
          injection h with h1 h2
          injection h2 with h2 h3
          subst h1; subst h2
          refine ⟨⟨[resp], by simp⟩, by simp, fun _ => by simp [hobs], fun e2 he => by cases he⟩
        | false =>
          simp only [if_neg] at h
          have hemit : (tr.emit (Ev.chunk resp)).obs = none := by simp [hobs]
          obtain ⟨⟨cs, hcs⟩, hbr, hnbr, hnf⟩ := ih (t+1) (tr.emit (Ev.chunk resp)) res tr2 t2 hemit h
          refine ⟨⟨resp :: cs, ?_⟩, hbr, hnbr, hnf⟩
          simp only [hcs, Trace.emit_events]
          simp

theorem netFailStep_spec (w : World) (a t : Nat) (tr : Trace) (made : Nat) (e : NetErr)
    (hobs : tr.obs = none) :
    (netFailStep w a t tr made e).made = made ∧
    (((netFailStep w a t tr made e).res = .retry ∧
        (netFailStep w a t tr made e).tr = tr ∧ a < maxRetries) ∨
     ((netFailStep w a t tr made e).res = .finishedEarly ∧
        (netFailStep w a t tr made e).tr.events = tr.events ++ [Ev.finished] ∧
        (netFailStep w a t tr made e).tr.obs = some tr.events.length) ∨
     ((netFailStep w a t tr made e).res = .breakLoop ∧
        (netFailStep w a t tr made e).tr.obs = none ∧
        (netFailStep w a t tr made e).tr.events
          = tr.events ++ [Ev.errorOccurred ("Network error: " ++ netErrMsg e)]) ∨
     ((netFailStep w a t tr made e).res = .breakLoop ∧
        (netFailStep w a t tr made e).tr.events = tr.events ∧
        (netFailStep w a t tr made e).tr.obs = some tr.events.length)) := by
  unfold netFailStep
  by_cases ha : a < maxRetries
  · rw [if_pos ha]
    by_cases hi : intr w.cancelAt t
    · rw [if_pos hi]
      exact ⟨rfl, Or.inr (Or.inr (Or.inr ⟨rfl, by simp, Trace.observe_obs tr hobs⟩))⟩
    · rw [if_neg hi]
      rcases hsl : sleepLoop w.cancelAt (t+1)
          (numIncrements (backoffDelay a (w.jitter a)) netSleepStep) with ⟨b, k0, t0⟩
      cases b with
      | true =>
        exact ⟨rfl, Or.inr (Or.inl ⟨rfl, by simp, by simp [Trace.observe_obs tr hobs]⟩)⟩
      | false =>
        exact ⟨rfl, Or.inl ⟨rfl, rfl, ha⟩⟩
  · rw [if_neg ha]
    by_cases hi : intr w.cancelAt t
    · rw [if_pos hi]
      exact ⟨rfl, Or.inr (Or.inr (Or.inr ⟨rfl, by simp, Trace.observe_obs tr hobs⟩))⟩
    · rw [if_neg hi]
      exact ⟨rfl, Or.inr (Or.inr (Or.inl ⟨rfl, hobs, by simp⟩))⟩

theorem attemptStep_spec (w : World) (a t : Nat) (tr : Trace) (made : Nat)
    (res : AttemptRes) (tr2 : Trace) (t2 made2 : Nat)
    (hobs : tr.obs = none)
    (h : attemptStep w a t tr made = ⟨res, tr2, t2, made2⟩) :
    made ≤ made2 ∧ made2 ≤ made + 1 ∧
    ∃ cs : List String,
      ((res = .retry ∧ tr2.events = tr.events ++ cs.map Ev.chunk ∧ tr2.obs = none) ∨
       (res = .crash ∧ tr2.events = tr.events ++ cs.map Ev.chunk ∧ tr2.obs = none) ∨
       (res = .finishedEarly ∧ tr2.events = tr.events ++ cs.map Ev.chunk ++ [Ev.finished] ∧
          tr2.obs = some (tr.events.length + cs.length)) ∨
       (res = .breakLoop ∧ tr2.obs = none ∧
          (tr2.events = tr.events ++ cs.map Ev.chunk ∨
           ∃ msg, tr2.events = tr.events ++ cs.map Ev.chunk ++ [Ev.errorOccurred msg])) ∨
       (res = .breakLoop ∧ tr2.events = tr.events ++ cs.map Ev.chunk ∧
          tr2.obs = some (tr.events.length + cs.length))) := by
  have hnet : ∀ (t3 : Nat) (tr3 : Trace) (made3 : Nat) (e : NetErr) (cs : List String),
      tr3.obs = none → tr3.events = tr.events ++ cs.map Ev.chunk →
      netFailStep w a t3 tr3 made3 e = ⟨res, tr2, t2, made2⟩ →
      made3 = made2 ∧
      ((res = .retry ∧ tr2.events = tr.events ++ cs.map Ev.chunk ∧ tr2.obs = none) ∨
       (res = .crash ∧ tr2.events = tr.events ++ cs.map Ev.chunk ∧ tr2.obs = none) ∨
       (res = .finishedEarly ∧ tr2.events = tr.events ++ cs.map Ev.chunk ++ [Ev.finished] ∧
          tr2.obs = some (tr.events.length + cs.length)) ∨
       (res = .breakLoop ∧ tr2.obs = none ∧
          (tr2.events = tr.events ++ cs.map Ev.chunk ∨
           ∃ msg, tr2.events = tr.events ++ cs.map Ev.chunk ++ [Ev.errorOccurred msg])) ∨
       (res = .breakLoop ∧ tr2.events = tr.events ++ cs.map Ev.chunk ∧
          tr2.obs = some (tr.events.length + cs.length))) := by
    intro t3 tr3 made3 e cs hobs3 hev3 h3
    have spec := netFailStep_spec w a t3 tr3 made3 e hobs3
    rw [h3] at spec
    dsimp only at spec
    obtain ⟨hmade, hcases⟩ := spec
    refine ⟨hmade.symm, ?_⟩
    rcases hcases with ⟨h1, h2, _⟩ | ⟨h1, h2, h3o⟩ | ⟨h1, h2o, h3e⟩ | ⟨h1, h2e, h3o⟩
    · exact Or.inl ⟨h1, by rw [h2, hev3], by rw [h2]; exact hobs3⟩
    · exact Or.inr (Or.inr (Or.inl ⟨h1, by simp [h2, hev3], by rw [h3o, hev3]; simp⟩))
    · exact Or.inr (Or.inr (Or.inr (Or.inl ⟨h1, h2o,
        Or.inr ⟨"Network error: " ++ netErrMsg e, by simp [h3e, hev3]⟩⟩)))
    · exact Or.inr (Or.inr (Or.inr (Or.inr ⟨h1, by rw [h2e, hev3], by rw [h3o, hev3]; simp⟩)))
  rw [attemptStep.eq_def] at h
  by_cases hi0 : intr w.cancelAt t
  · rw [if_pos hi0] at h
    injection h with h1 h2 h3 h4
    subst h1; subst h2; subst h4
    refine ⟨le_rfl, by omega, [], Or.inr (Or.inr (Or.inl ⟨rfl, by simp, ?_⟩))⟩
    simp [Trace.observe_obs tr hobs]
  · rw [if_neg hi0] at h
    rcases ho : w.outcomes a with r | e | msg <;> rw [ho] at h <;> dsimp only at h
    · -- response r
      by_cases h4xx : 400 ≤ r.status ∧ r.status < 600
      · rw [if_pos h4xx] at h
        by_cases hretry : r.status = 429 ∨ (500 ≤ r.status ∧ r.status < 600)
        · rw [if_pos hretry] at h
          by_cases ha : a < maxRetries
          · rw [if_pos ha] at h
            by_cases hi1 : intr w.cancelAt (t+1)
            · rw [if_pos hi1] at h
              injection h with h1 h2 h3 h4
              subst h1; subst h2; subst h4
              refine ⟨by omega, by omega, [], Or.inr (Or.inr (Or.inr (Or.inr ⟨rfl, by simp, ?_⟩)))⟩
              simp [Trace.observe_obs tr hobs]
            · rw [if_neg hi1] at h
              rcases hsl : sleepLoop w.cancelAt (t+2)
                  (numIncrements (httpSleepSecs r.retryAfter a (w.jitter a)) httpSleepStep)
                with ⟨b, k0, t0⟩
              rw [hsl] at h
              cases b with
              | true =>
                dsimp only at h
                injection h with h1 h2 h3 h4
                subst h1; subst h2; subst h4
                refine ⟨by omega, by omega, [],
                  Or.inr (Or.inr (Or.inl ⟨rfl, by simp, ?_⟩))⟩
                simp [Trace.observe_obs tr hobs]
              | false =>
                dsimp only at h
                injection h with h1 h2 h3 h4
                subst h1; subst h2; subst h4
                exact ⟨by omega, by omega, [], Or.inl ⟨rfl, by simp, hobs⟩⟩
          · rw [if_neg ha] at h
            by_cases hi1 : intr w.cancelAt (t+1)
            · rw [if_pos hi1] at h
              injection h with h1 h2 h3 h4
              subst h1; subst h2; subst h4
              refine ⟨by omega, by omega, [],
                Or.inr (Or.inr (Or.inr (Or.inr ⟨rfl, by simp, ?_⟩)))⟩
              simp [Trace.observe_obs tr hobs]
            · rw [if_neg hi1] at h
              injection h with h1 h2 h3 h4
              subst h1; subst h2; subst h4
              exact ⟨by omega, by omega, [],
                Or.inr (Or.inr (Or.inr (Or.inl ⟨rfl, by simpa using hobs,
                  Or.inr ⟨httpErrMsg r.status, by simp⟩⟩)))⟩
        · rw [if_neg hretry] at h
          by_cases hi1 : intr w.cancelAt (t+1)
          · rw [if_pos hi1] at h
            injection h with h1 h2 h3 h4
            subst h1; subst h2; subst h4
            refine ⟨by omega, by omega, [],
              Or.inr (Or.inr (Or.inr (Or.inr ⟨rfl, by simp, ?_⟩)))⟩
            simp [Trace.observe_obs tr hobs]
          · rw [if_neg hi1] at h
            injection h with h1 h2 h3 h4
            subst h1; subst h2; subst h4
            exact ⟨by omega, by omega, [],
              Or.inr (Or.inr (Or.inr (Or.inl ⟨rfl, by simpa using hobs,
                Or.inr ⟨httpErrMsg r.status, by simp⟩⟩)))⟩
      · rw [if_neg h4xx] at h
        rcases hst : streamLines w.cancelAt r.bodyErr r.body (t+1) tr with ⟨sres, trS, tS⟩
        rw [hst] at h
        obtain ⟨⟨cs, hcs⟩, hbr, hnbr, hnf⟩ :=
          streamLines_spec w.cancelAt r.bodyErr r.body (t+1) tr sres trS tS hobs hst
        cases sres with
        | broke =>
          dsimp only at h
          injection h with h1 h2 h3 h4
          subst h1; subst h2; subst h4
          refine ⟨by omega, by omega, cs,
            Or.inr (Or.inr (Or.inr (Or.inr ⟨rfl, hcs, ?_⟩)))⟩
          rw [hbr rfl, hcs]
          simp
        | doneOk =>
          dsimp only at h
          injection h with h1 h2 h3 h4
          subst h1; subst h2; subst h4
          exact ⟨by omega, by omega, cs,
            Or.inr (Or.inr (Or.inr (Or.inl ⟨rfl, hnbr (by simp), Or.inl hcs⟩)))⟩
        | crashed =>
          dsimp only at h
          injection h with h1 h2 h3 h4
          subst h1; subst h2; subst h4
          exact ⟨by omega, by omega, cs, Or.inr (Or.inl ⟨rfl, hcs, hnbr (by simp)⟩)⟩
        | netFail e =>
          dsimp only at h
          obtain ⟨hm, hc⟩ := hnet tS trS (made + 1) e cs (hnbr (by simp)) hcs h
          exact ⟨by omega, by omega, cs, hc⟩
    · -- netError e
      obtain ⟨hm, hc⟩ := hnet (t+1) tr (made + 1) e [] hobs (by simp) h
      exact ⟨by omega, by omega, [], hc⟩
    · -- requestError msg
      by_cases hi1 : intr w.cancelAt (t+1)
      · rw [if_pos hi1] at h
        injection h with h1 h2 h3 h4
        subst h1; subst h2; subst h4
        refine ⟨by omega, by omega, [],
          Or.inr (Or.inr (Or.inr (Or.inr ⟨rfl, by simp, ?_⟩)))⟩
        simp [Trace.observe_obs tr hobs]
      · rw [if_neg hi1] at h
        injection h with h1 h2 h3 h4
        subst h1; subst h2; subst h4
        exact ⟨by omega, by omega, [],
          Or.inr (Or.inr (Or.inr (Or.inl ⟨rfl, by simpa using hobs,
            Or.inr ⟨"API request failed: " ++ msg, by simp⟩⟩)))⟩

theorem runFrom_spec (w : World) :
    ∀ (fuel a t : Nat) (tr : Trace) (made : Nat), tr.obs = none →
      made ≤ (runFrom w fuel a t tr made).attemptsMade ∧
      (runFrom w fuel a t tr made).attemptsMade ≤ made + fuel ∧
      ∃ cs : List String, ∃ eOpt : Option String,
        ((runFrom w fuel a t tr made).crashed = true →
            (runFrom w fuel a t tr made).events = tr.events ++ cs.map Ev.chunk ∧
            (runFrom w fuel a t tr made).obs = none) ∧
        ((runFrom w fuel a t tr made).crashed = false →
            (runFrom w fuel a t tr made).events
              = tr.events ++ cs.map Ev.chunk ++ optErrEvents eOpt ++ [Ev.finished]) ∧
        ((runFrom w fuel a t tr made).obs ≠ none → eOpt = none) ∧
        (∀ k, (runFrom w fuel a t tr made).obs = some k →
            (runFrom w fuel a t tr made).crashed = false ∧
            (runFrom w fuel a t tr made).events.drop k = [Ev.finished]) := by
  intro fuel
  induction fuel with
  | zero =>
    intro a t tr made hobs
    rw [runFrom]
    dsimp only
    refine ⟨le_rfl, by omega, [], none, ?_, ?_, ?_, ?_⟩
    · intro hcr; cases hcr
    · intro _; simp [optErrEvents]
    · intro hobs2; exact absurd (by simpa using hobs) hobs2
    · intro k hk; rw [show (Trace.emit tr Ev.finished).obs = none from by simpa using hobs] at hk
      cases hk
  | succ fuel ih =>
    intro a t tr made hobs
    rcases ho : attemptStep w a t tr made with ⟨res, tr2, t2, made2⟩
    obtain ⟨hm1, hm2, cs, hcase⟩ :=
      attemptStep_spec w a t tr made res tr2 t2 made2 hobs ho
    rw [runFrom, ho]
    rcases hcase with ⟨hres, hev, hob⟩ | ⟨hres, hev, hob⟩ | ⟨hres, hev, hob⟩
      | ⟨hres, hob, hev⟩ | ⟨hres, hev, hob⟩ <;> subst hres <;> dsimp only
    · -- retry
      obtain ⟨ihm1, ihm2, cs2, eOpt2, ihcr, ihok, ihobs, ihdrop⟩ :=
        ih (a+1) t2 tr2 made2 hob
      refine ⟨by omega, by omega, cs ++ cs2, eOpt2, ?_, ?_, ihobs, ihdrop⟩
      · intro hcr
        obtain ⟨he, hn⟩ := ihcr hcr
        exact ⟨by rw [he, hev]; simp, hn⟩
      · intro hcr
        rw [ihok hcr, hev]
        simp
    · -- crash
      refine ⟨by omega, by omega, cs, none, ?_, ?_, ?_, ?_⟩
      · intro _; exact ⟨hev, hob⟩
      · intro hcr; cases hcr
      · intro hobs2; exact absurd hob hobs2
      · intro k hk; rw [hob] at hk; cases hk
    · -- finishedEarly
      refine ⟨by omega, by omega, cs, none, ?_, ?_, ?_, ?_⟩
      · intro hcr; cases hcr
      · intro _; rw [hev]; simp [optErrEvents]
      · intro _; rfl
      · intro k hk
        rw [hob] at hk
        injection hk with hk
        subst hk
        refine ⟨rfl, ?_⟩
        rw [hev, show tr.events ++ cs.map Ev.chunk ++ [Ev.finished]
          = (tr.events ++ cs.map Ev.chunk) ++ [Ev.finished] from by simp,
          show tr.events.length + cs.length = (tr.events ++ cs.map Ev.chunk).length from by simp]
        exact List.drop_left _ _
    · -- breakLoop with obs = none
      rcases hev with hplain | ⟨msg, herr⟩
      · refine ⟨by omega, by omega, cs, none, ?_, ?_, ?_, ?_⟩
        · intro hcr; cases hcr
        · intro _; simp [optErrEvents, hplain]
        · intro hobs2; exact absurd (by simpa using hob) hobs2
        · intro k hk
          rw [show (Trace.emit tr2 Ev.finished).obs = none from by simpa using hob] at hk
          cases hk
      · refine ⟨by omega, by omega, cs, some msg, ?_, ?_, ?_, ?_⟩
        · intro hcr; cases hcr
        · intro _; simp [optErrEvents, herr]
        · intro hobs2; exact absurd (by simpa using hob) hobs2
        · intro k hk
          rw [show (Trace.emit tr2 Ev.finished).obs = none from by simpa using hob] at hk
          cases hk
    · -- breakLoop with observation
      refine ⟨by omega, by omega, cs, none, ?_, ?_, ?_, ?_⟩
      · intro hcr; cases hcr
      · intro _; simp [optErrEvents, hev]
      · intro _; rfl
      · intro k hk
        rw [show (Trace.emit tr2 Ev.finished).obs = tr2.obs from rfl, hob] at hk
        injection hk with hk
        subst hk
        refine ⟨rfl, ?_⟩
        rw [show (Trace.emit tr2 Ev.finished).events = tr2.events ++ [Ev.finished] from rfl,
          hev, show tr.events ++ cs.map Ev.chunk ++ [Ev.finished]
            = (tr.events ++ cs.map Ev.chunk) ++ [Ev.finished] from by simp,
          show tr.events.length + cs.length = (tr.events ++ cs.map Ev.chunk).length from by simp]
        exact List.drop_left _ _

/-- Without cancellation, the streaming loop delivers exactly the produced
chunks of the body, in order, each exactly once. -/
theorem streamLines_order (be : Option NetErr) :
    ∀ (ls : List StreamLine) (t : Nat) (tr : Trace), wellFormedBody ls = true →
      (streamLines none be ls t tr).2.1.events
        = tr.events ++ (producedChunks ls).map Ev.chunk := by
  intro ls
  induction ls with
  | nil =>
    intro t tr hwf
    rw [streamLines.eq_def]
    cases be <;> simp [producedChunks]
  | cons l rest ih =>
    intro t tr hwf
    rw [streamLines.eq_def]
    dsimp only
    rw [if_neg (by simp [intr])]
    cases l with
    | empty =>
      rw [producedChunks]
      exact ih (t+1) tr (by simpa [wellFormedBody] using hwf)
    | malformed => simp [wellFormedBody] at hwf
    | record resp dn =>
      cases dn with
      | true => simp [producedChunks]
      | false =>
        dsimp only
        rw [if_neg (by simp)]
        rw [ih (t+1) (tr.emit (Ev.chunk resp)) (by simpa [wellFormedBody] using hwf)]
        simp [producedChunks]

theorem streamLines_netFail (c : Option Nat) (be : Option NetErr) :
    ∀ (ls : List StreamLine) (t : Nat) (tr : Trace) (e : NetErr) (tr2 : Trace) (t2 : Nat),
      streamLines c be ls t tr = (.netFail e, tr2, t2) → be = some e := by
  intro ls
  induction ls with
  | nil =>
    intro t tr e tr2 t2 h
    rw [streamLines.eq_def] at h
    dsimp only at h
    cases hbe : be with
    | some e2 =>
      rw [hbe] at h
      dsimp only at h
      injection h with h1 h2
      injection h1 with h1
      rw [h1]
    | none =>
      rw [hbe] at h
      dsimp only at h
      injection h with h1 h2
      cases h1
  | cons l rest ih =>
    intro t tr e tr2 t2 h
    rw [streamLines.eq_def] at h
    dsimp only at h
    by_cases hi : intr c t
    · rw [if_pos hi] at h
      injection h with h1 h2
      cases h1
    · rw [if_neg hi] at h
      cases l with
      | empty => exact ih (t+1) tr e tr2 t2 h
      | malformed =>
        injection h with h1 h2
        cases h1
      | record resp dn =>
        dsimp only at h
        cases dn with
        | true =>
          rw [if_pos rfl] at h
          injection h with h1 h2
          cases h1
        | false =>
          rw [if_neg (by simp)] at h
          exact ih (t+1) (tr.emit (Ev.chunk resp)) e tr2 t2 h

theorem netFailStep_retry (w : World) (a t : Nat) (tr : Trace) (made : Nat) (e : NetErr)
    (h : (netFailStep w a t tr made e).res = .retry) : a < maxRetries := by
  by_contra ha
  unfold netFailStep at h
  rw [if_neg ha] at h
  by_cases hi : intr w.cancelAt t
  · rw [if_pos hi] at h; cases h
  · rw [if_neg hi] at h; cases h

/-- The worker retries an attempt only when attempts remain and the
attempt failed retryably: HTTP 429, HTTP 5xx, or a transient network
error (at request time or mid-stream). -/
theorem attemptStep_retry_cond (w : World) (a t : Nat) (tr : Trace) (made : Nat)
    (h : (attemptStep w a t tr made).res = .retry) :
    a < maxRetries ∧ retryCond (w.outcomes a) := by
  unfold attemptStep at h
  by_cases hi0 : intr w.cancelAt t
  · rw [if_pos hi0] at h; cases h
  · rw [if_neg hi0] at h
    rcases ho : w.outcomes a with r | e | msg <;> rw [ho] at h <;> dsimp only at h
    · by_cases h4xx : 400 ≤ r.status ∧ r.status < 600
      · rw [if_pos h4xx] at h
        by_cases hretry : r.status = 429 ∨ (500 ≤ r.status ∧ r.status < 600)
        · rw [if_pos hretry] at h
          by_cases ha : a < maxRetries
          · refine ⟨ha, ?_⟩
            rw [retryCond]
            exact Or.inl ⟨h4xx.1, h4xx.2, by omega⟩
          · rw [if_neg ha] at h
            by_cases hi1 : intr w.cancelAt (t+1)
            · rw [if_pos hi1] at h; cases h
            · rw [if_neg hi1] at h; cases h
        · rw [if_neg hretry] at h
          by_cases hi1 : intr w.cancelAt (t+1)
          · rw [if_pos hi1] at h; cases h
          · rw [if_neg hi1] at h; cases h
      · rw [if_neg h4xx] at h
        rcases hst : streamLines w.cancelAt r.bodyErr r.body (t+1) tr with ⟨sres, trS, tS⟩
        rw [hst] at h
        cases sres with
        | broke => cases h
        | doneOk => cases h
        | crashed => cases h
        | netFail e =>
          dsimp only at h
          refine ⟨netFailStep_retry w a tS trS (made+1) e h, ?_⟩
          rw [retryCond]
          refine Or.inr ⟨h4xx, ?_⟩
          have hbe : r.bodyErr = some e :=
            streamLines_netFail w.cancelAt r.bodyErr r.body (t+1) tr e trS tS hst
          rw [hbe]
          simp
    · exact ⟨netFailStep_retry w a (t+1) tr (made+1) e h, trivial⟩
    · by_cases hi1 : intr w.cancelAt (t+1)
      · rw [if_pos hi1] at h; cases h
      · rw [if_neg hi1] at h; cases h

/-- A non-retryable HTTP error status (4xx other than 429) is surfaced at
once: the attempt emits the error and breaks, with no retry. -/
theorem attemptStep_nonretryable (w : World) (a t : Nat) (tr : Trace) (made : Nat)
    (r : HttpResponse)
    (ho : w.outcomes a = .response r) (h1 : 400 ≤ r.status) (h2 : r.status < 600)
    (h3 : ¬(r.status = 429 ∨ (500 ≤ r.status ∧ r.status < 600)))
    (hi0 : intr w.cancelAt t = false) (hi1 : intr w.cancelAt (t+1) = false) :
    attemptStep w a t tr made
      = ⟨.breakLoop, tr.emit (.errorOccurred (httpErrMsg r.status)), t + 2, made + 1⟩ := by
  unfold attemptStep
  rw [hi0]
  simp only [Bool.false_eq_true, if_false]
  rw [ho]
  dsimp only
  rw [if_pos ⟨h1, h2⟩, if_neg h3, hi1]
  simp only [Bool.false_eq_true, if_false]

/-- A retryable HTTP failure on the last allowed attempt is surfaced:
with no attempts left, the error is emitted and the loop breaks. -/
theorem attemptStep_http_exhausted (w : World) (a t : Nat) (tr : Trace) (made : Nat)
    (r : HttpResponse)
    (ho : w.outcomes a = .response r) (h1 : 400 ≤ r.status) (h2 : r.status < 600)
    (hretry : r.status = 429 ∨ (500 ≤ r.status ∧ r.status < 600)) (ha : ¬ a < maxRetries)
    (hi0 : intr w.cancelAt t = false) (hi1 : intr w.cancelAt (t+1) = false) :
    attemptStep w a t tr made
      = ⟨.breakLoop, tr.emit (.errorOccurred (httpErrMsg r.status)), t + 2, made + 1⟩ := by
  unfold attemptStep
  rw [hi0]
  simp only [Bool.false_eq_true, if_false]
  rw [ho]
  dsimp only
  rw [if_pos ⟨h1, h2⟩, if_pos hretry, if_neg ha, hi1]
  simp only [Bool.false_eq_true, if_false]

/-- With every attempt failing with a transient network error and no
cancellation, the worker makes all four attempts and surfaces the last
error. -/
theorem runWorker_exhausts_retries (es : Nat → NetErr) (j : Nat → ℚ) :
    runWorker { outcomes := fun k => .netError (es k), jitter := j, cancelAt := none }
      = { events := [Ev.errorOccurred ("Network error: " ++ netErrMsg (es 3)), Ev.finished],
          obs := none, crashed := false, attemptsMade := 4 } := by
  simp [runWorker, runFrom, attemptStep, netFailStep, intr, sleepLoop_none, maxRetries]

/-! ### Helper lemmas: starting a worker -/

@[simp] theorem startWorkerForMode_pendingModes (s : OrchState) (g : Nat) (m : String) :
    (startWorkerForMode s g m).pendingModes = s.pendingModes := by
  unfold startWorkerForMode
  by_cases hm : m ∈ modeNames <;> simp [hm]

@[simp] theorem startWorkerForMode_modeResults (s : OrchState) (g : Nat) (m : String) :
    (startWorkerForMode s g m).modeResults = s.modeResults := by
  unfold startWorkerForMode
  by_cases hm : m ∈ modeNames <;> simp [hm]

@[simp] theorem startWorkerForMode_modeErrors (s : OrchState) (g : Nat) (m : String) :
    (startWorkerForMode s g m).modeErrors = s.modeErrors := by
  unfold startWorkerForMode
  by_cases hm : m ∈ modeNames <;> simp [hm]

@[simp] theorem startWorkerForMode_currentGeneration (s : OrchState) (g : Nat) (m : String) :
    (startWorkerForMode s g m).currentGeneration = s.currentGeneration := by
  unfold startWorkerForMode
  by_cases hm : m ∈ modeNames <;> simp [hm]

@[simp] theorem startWorkerForMode_modeGenerations (s : OrchState) (g : Nat) (m : String) :
    (startWorkerForMode s g m).modeGenerations = s.modeGenerations := by
  unfold startWorkerForMode
  by_cases hm : m ∈ modeNames <;> simp [hm]

@[simp] theorem startWorkerForMode_runningModes (s : OrchState) (g : Nat) (m : String) :
    (startWorkerForMode s g m).runningModes = setAdd s.runningModes m := by
  unfold startWorkerForMode
  by_cases hm : m ∈ modeNames <;> simp [hm]

@[simp] theorem startWorkerForMode_modeStatus (s : OrchState) (g : Nat) (m : String) :
    (startWorkerForMode s g m).modeStatus = aset s.modeStatus m "running" := by
  unfold startWorkerForMode
  by_cases hm : m ∈ modeNames <;> simp [hm]

theorem startWorkerForMode_panelText_ne (s : OrchState) (g : Nat) (m m2 : String)
    (hne : m ≠ m2) :
    alookup (startWorkerForMode s g m).panelText m2 = alookup s.panelText m2 := by
  unfold startWorkerForMode
  by_cases hm : m ∈ modeNames <;> simp [hm, alookup_aset_ne _ _ _ _ hne]

/-! ### The claims -/

/-- C1 (amended): a chunk or error event carrying a stale generation
leaves the whole state unchanged.  A finished event with a stale
generation removes the mode from the running set; with an empty queue it
changes nothing else, and otherwise it pops and starts the mode at the
front of the queue, leaving the displayed text, recorded result, error
and status of the finished mode unchanged PROVIDED the queue head is not
that same mode.  (When the mode itself heads the queue - after a refresh
issued while it was running - the stale finished event starts its new
generation, which sets its status to running and its panel to the loading
placeholder; see the counterexample.) -/
theorem claim_C1 (s : OrchState) (g : Nat) (m c msg : String)
    (hstale : alookup s.modeGenerations m ≠ some g) :
    updatePanelTextIfCurrent s g m c = s ∧
    showPanelErrorIfCurrent s g m msg = s ∧
    (s.pendingModes = [] →
      onWorkerFinishedIfCurrent s g m = { s with runningModes := s.runningModes.erase m }) ∧
    (∀ h2 rest, s.pendingModes = h2 :: rest →
      (onWorkerFinishedIfCurrent s g m).pendingModes = rest ∧
      alookup (onWorkerFinishedIfCurrent s g m).modeStatus h2 = some "running" ∧
      (onWorkerFinishedIfCurrent s g m).runningModes = setAdd (s.runningModes.erase m) h2 ∧
      (h2 ≠ m →
        alookup (onWorkerFinishedIfCurrent s g m).modeStatus m = alookup s.modeStatus m ∧
        panelGet (onWorkerFinishedIfCurrent s g m) m = panelGet s m ∧
        alookup (onWorkerFinishedIfCurrent s g m).modeResults m = alookup s.modeResults m ∧
        alookup (onWorkerFinishedIfCurrent s g m).modeErrors m = alookup s.modeErrors m)) := by
  refine ⟨?_, ?_, ?_, ?_⟩
  · unfold updatePanelTextIfCurrent
    rw [if_neg hstale]
  · unfold showPanelErrorIfCurrent
    rw [if_neg hstale]
  · intro hpend
    unfold onWorkerFinishedIfCurrent
    rw [if_neg hstale]
    simp [hpend]
  · intro h2 rest hpend
    unfold onWorkerFinishedIfCurrent
    rw [if_neg hstale]
    have hne : ({ s with runningModes := s.runningModes.erase m } : OrchState).pendingModes ≠ [] := by
      simp [hpend]
    rw [if_pos hne]
    unfold startNextInQueue
    simp only [hpend]
    refine ⟨by simp, by simp, by simp, ?_⟩
    intro hnem
    refine ⟨?_, ?_, by simp, by simp⟩
    · simp [alookup_aset_ne _ _ _ _ hnem]
    · unfold panelGet
      rw [startWorkerForMode_panelText_ne _ _ _ _ hnem]

/-- C1 counterexample: in the reachable state after `run_all` and a
refresh of Proofread while it was running, Proofread has generation 2,
status `queued`, text `Queued...`, and heads the pending queue; the stale
`finished` of its generation-1 worker then flips its status to `running`
and its panel to `Loading...`, so a stale finished event did alter the
visible text and status of the mode. -/
theorem claim_C1_counterexample :
    (runTrace "hello" [.runAll, .refresh "Proofread"]).map
        (fun s => (alookup s.modeGenerations "Proofread", alookup s.modeStatus "Proofread",
                   panelGet s "Proofread", s.pendingModes.head?))
      = some (some 2, some "queued", "Queued...", some "Proofread") ∧
    (runTrace "hello" staleFinishTrace).map
        (fun s => (alookup s.modeStatus "Proofread", panelGet s "Proofread"))
      = some (some "running", "Loading...") := by
  decide

theorem claim_C1_witness :
    updatePanelTextIfCurrent (initState "x") 5 "Proofread" "hi" = initState "x" ∧
    onWorkerFinishedIfCurrent (initState "x") 5 "Proofread"
      = { initState "x" with runningModes := (initState "x").runningModes.erase "Proofread" } :=
  ⟨(claim_C1 (initState "x") 5 "Proofread" "hi" "err" (by decide)).1,
   (claim_C1 (initState "x") 5 "Proofread" "hi" "err" (by decide)).2.2.1 (by decide)⟩

/-- C2 (code bug): the concurrency ceiling `|running_modes| ≤ 3` is
violated in a reachable trace.  After a second `run_all` while the three
generation-1 workers are still alive, their stale finished events each
remove the identically named generation-2 running mode from the set and
backfill from the queue; when the generation-2 Proofread worker then
finishes, Proofread is no longer in the set, nothing is removed, and one
more mode is started: the running set reaches four modes. -/
theorem claim_C2_bug :
    maxConcurrent = 3 ∧
    (runTrace "hello" overflowTrace).map (fun s => s.runningModes.length) = some 4 ∧
    (runTrace "hello" overflowTrace).map (fun s => s.runningModes)
      = some ["Rewrite", "Professional", "Friendly", "Concise"] := by
  decide

/-- C3: with non-blank input and the 9-mode table, `run_all_generations`
bumps the generation, gives every mode the new generation token, enqueues
all nine mode names in table order, starts exactly the first three
(leaving the remaining six queued), and each completion of a
current-generation task pops exactly the front of the queue and starts
it. -/
theorem claim_C3 (s : OrchState) (hclip : strip s.mainClipboardText ≠ "") :
    modeNames.length = 9 ∧
    (runAllGenerations s).currentGeneration = s.currentGeneration + 1 ∧
    (∀ m ∈ modeNames,
      alookup (runAllGenerations s).modeGenerations m = some (s.currentGeneration + 1)) ∧
    (runAllGenerations s).runningModes = modeNames.take 3 ∧
    (runAllGenerations s).pendingModes = modeNames.drop 3 ∧
    (∀ m ∈ modeNames.take 3, alookup (runAllGenerations s).modeStatus m = some "running") ∧
    (∀ m ∈ modeNames.drop 3, alookup (runAllGenerations s).modeStatus m = some "queued") ∧
    (∀ (s2 : OrchState) (g : Nat) (m h2 : String) (rest : List String),
      alookup s2.modeGenerations m = some g → s2.pendingModes = h2 :: rest →
      (onWorkerFinishedIfCurrent s2 g m).pendingModes = rest ∧
      alookup (onWorkerFinishedIfCurrent s2 g m).modeStatus h2 = some "running" ∧
      (onWorkerFinishedIfCurrent s2 g m).runningModes = setAdd (s2.runningModes.erase m) h2) := by
  refine ⟨by simp [modeNames, getChatModes], ?_, ?_, ?_, ?_, ?_, ?_, ?_⟩
  · unfold runAllGenerations
    rw [if_neg hclip]
    simp +decide [modeNames, getChatModes, iterateStart, startNextInQueue, maxConcurrent,
      setAdd, alookup, aset]
  · unfold runAllGenerations
    rw [if_neg hclip]
    intro m hm
    simp only [modeNames, getChatModes] at hm
    fin_cases hm <;>
      simp +decide [modeNames, getChatModes, iterateStart, startNextInQueue, maxConcurrent,
        setAdd, alookup, aset]
  · unfold runAllGenerations
    rw [if_neg hclip]
    simp +decide [modeNames, getChatModes, iterateStart, startNextInQueue, maxConcurrent,
      setAdd, alookup, aset]
  · unfold runAllGenerations
    rw [if_neg hclip]
    simp +decide [modeNames, getChatModes, iterateStart, startNextInQueue, maxConcurrent,
      setAdd, alookup, aset]
  · unfold runAllGenerations
    rw [if_neg hclip]
    intro m hm
    simp +decide [modeNames, getChatModes] at hm
    rcases hm with h | h | h <;> subst h <;>
      simp +decide [modeNames, getChatModes, iterateStart, startNextInQueue, maxConcurrent,
        setAdd, alookup, aset]
  · unfold runAllGenerations
    rw [if_neg hclip]
    intro m hm
    simp +decide [modeNames, getChatModes] at hm
    rcases hm with h | h | h | h | h | h <;> subst h <;>
      simp +decide [modeNames, getChatModes, iterateStart, startNextInQueue, maxConcurrent,
        setAdd, alookup, aset]
  · intro s2 g m h2 rest hcur hpend
    unfold onWorkerFinishedIfCurrent onWorkerFinished
    rw [if_pos hcur]
    by_cases hst : alookup s2.modeStatus m ≠ some "error"
    · rw [if_pos hst]
      dsimp only
      rw [if_pos (show ¬(s2.pendingModes = []) from by simp [hpend])]
      unfold startNextInQueue
      dsimp only
      rw [hpend]
      simp
    · rw [if_neg hst]
      dsimp only
      rw [if_pos (show ¬(s2.pendingModes = []) from by simp [hpend])]
      unfold startNextInQueue
      dsimp only
      rw [hpend]
      simp

theorem claim_C3_witness :
    (runAllGenerations (initState "hello")).runningModes
        = ["Proofread", "Summarise", "Explain"] ∧
    (runAllGenerations (initState "hello")).pendingModes
        = ["Rewrite", "Professional", "Friendly", "Concise", "Fallacy Finder", "Answer It"] ∧
    alookup (runAllGenerations (initState "hello")).modeGenerations "Answer It" = some 1 :=
  ⟨by rw [(claim_C3 (initState "hello") (by decide)).2.2.2.1]; decide,
   by rw [(claim_C3 (initState "hello") (by decide)).2.2.2.2.1]; decide,
   by rw [(claim_C3 (initState "hello") (by decide)).2.2.1 "Answer It" (by decide)]; decide⟩

/-- C4 (amended): with non-blank input, `refresh_mode` assigns the mode a
fresh generation token (the bumped global counter), removes any stale
queued occurrence, and resets it to queued; then, if the mode is NOT
itself still in the running set and a slot is free, it starts
immediately; otherwise - including when the mode itself is still running,
however many slots are free - it is inserted at the front of the pending
queue, ahead of any mode still queued from the original batch.  (The
claim as frozen says a free slot alone suffices to start immediately;
the counterexample shows the mode staying queued with two free slots
because it was itself still running.) -/
theorem claim_C4 (s : OrchState) (m : String)
    (hclip : strip s.mainClipboardText ≠ "") (hm : m ∈ modeNames) :
    (refreshMode s m).currentGeneration = s.currentGeneration + 1 ∧
    alookup (refreshMode s m).modeGenerations m = some (s.currentGeneration + 1) ∧
    (m ∉ s.runningModes → s.runningModes.length < maxConcurrent →
      alookup (refreshMode s m).modeStatus m = some "running" ∧
      m ∈ (refreshMode s m).runningModes ∧
      (refreshMode s m).pendingModes = s.pendingModes.erase m) ∧
    ((m ∈ s.runningModes ∨ ¬ s.runningModes.length < maxConcurrent) →
      alookup (refreshMode s m).modeStatus m = some "queued" ∧
      panelGet (refreshMode s m) m = "Queued..." ∧
      (refreshMode s m).pendingModes = m :: s.pendingModes.erase m ∧
      (refreshMode s m).runningModes = s.runningModes) := by
  unfold refreshMode
  rw [if_neg hclip]
  dsimp only
  rw [if_pos hm]
  by_cases hrun : m ∈ s.runningModes
  · rw [if_pos hrun]
    refine ⟨by simp, by simp, ?_, ?_⟩
    · intro hnrun _; exact absurd hrun hnrun
    · intro _; refine ⟨by simp, ?_, by simp, by simp⟩
      unfold panelGet
      simp
  · rw [if_neg hrun]
    by_cases hslot : s.runningModes.length < maxConcurrent
    · rw [if_pos hslot]
      refine ⟨by simp, by simp, ?_, ?_⟩
      · intro _ _; exact ⟨by simp, by simp [setAdd, hrun], by simp⟩
      · intro hcon
        rcases hcon with h | h
        · exact absurd h hrun
        · exact absurd hslot h
    · rw [if_neg hslot]
      refine ⟨by simp, by simp, ?_, ?_⟩
      · intro _ hs; exact absurd hs hslot
      · intro _; refine ⟨by simp, ?_, by simp, by simp⟩
        unfold panelGet
        simp

/-- C4 counterexample: in the reachable state reached by `run_all`
followed by the first eight modes finishing, only `Answer It` occupies the
running set (two slots free).  Refreshing it then leaves it queued -
status `queued`, inserted at the front of the pending queue, not started -
because the mode itself is still running, refuting the frozen claim that
a free slot alone makes the refreshed mode start immediately. -/
theorem claim_C4_counterexample :
    (runTrace "hello" (refreshBusyTrace.take 9)).map
        (fun s => (s.runningModes, s.pendingModes))
      = some (["Answer It"], []) ∧
    (runTrace "hello" refreshBusyTrace).map
        (fun s => (s.runningModes.length, alookup s.modeStatus "Answer It", s.pendingModes))
      = some (1, some "queued", ["Answer It"]) := by
  decide

theorem claim_C4_witness :
    alookup (refreshMode (runAllGenerations (initState "hello")) "Proofread").modeGenerations
        "Proofread" = some 2 ∧
    (refreshMode (runAllGenerations (initState "hello")) "Proofread").pendingModes
      = "Proofread" :: (runAllGenerations (initState "hello")).pendingModes.erase "Proofread" :=
  ⟨by rw [(claim_C4 (runAllGenerations (initState "hello")) "Proofread"
        (by decide) (by decide)).2.1]; decide,
   ((claim_C4 (runAllGenerations (initState "hello")) "Proofread"
        (by decide) (by decide)).2.2.2 (Or.inl (by decide))).2.2.1⟩

/-- C5: the worker makes at most `max_retries + 1 = 4` attempts; an
attempt is retried only when attempts remain and it failed with HTTP 429,
HTTP 5xx, or a transient network error; any other HTTP error status is
surfaced immediately as an error with no retry; a retryable HTTP failure
on the final allowed attempt is surfaced instead of retried; and when
every attempt fails transiently the last error is surfaced after the
fourth attempt. -/
theorem claim_C5 :
    (∀ w : World, (runWorker w).attemptsMade ≤ maxRetries + 1) ∧
    (∀ (w : World) (a t : Nat) (tr : Trace) (made : Nat),
      (attemptStep w a t tr made).res = .retry →
      a < maxRetries ∧ retryCond (w.outcomes a)) ∧
    (∀ (w : World) (a t : Nat) (tr : Trace) (made : Nat) (r : HttpResponse),
      w.outcomes a = .response r → 400 ≤ r.status → r.status < 600 →
      ¬(r.status = 429 ∨ (500 ≤ r.status ∧ r.status < 600)) →
      intr w.cancelAt t = false → intr w.cancelAt (t+1) = false →
      attemptStep w a t tr made
        = ⟨.breakLoop, tr.emit (.errorOccurred (httpErrMsg r.status)), t + 2, made + 1⟩) ∧
    (∀ (w : World) (a t : Nat) (tr : Trace) (made : Nat) (r : HttpResponse),
      w.outcomes a = .response r → 400 ≤ r.status → r.status < 600 →
      (r.status = 429 ∨ (500 ≤ r.status ∧ r.status < 600)) → ¬ a < maxRetries →
      intr w.cancelAt t = false → intr w.cancelAt (t+1) = false →
      attemptStep w a t tr made
        = ⟨.breakLoop, tr.emit (.errorOccurred (httpErrMsg r.status)), t + 2, made + 1⟩) ∧
    (∀ (es : Nat → NetErr) (j : Nat → ℚ),
      runWorker { outcomes := fun k => .netError (es k), jitter := j, cancelAt := none }
        = { events := [Ev.errorOccurred ("Network error: " ++ netErrMsg (es 3)), Ev.finished],
            obs := none, crashed := false, attemptsMade := 4 }) := by
  refine ⟨?_, attemptStep_retry_cond, attemptStep_nonretryable, attemptStep_http_exhausted,
    runWorker_exhausts_retries⟩
  intro w
  have h := (runFrom_spec w (maxRetries+1) 0 0 { events := [], obs := none } 0 rfl).2.1
  simpa [runWorker] using h

theorem claim_C5_witness :
    (runWorker wNetTimeout).attemptsMade ≤ maxRetries + 1 ∧
    (0 < maxRetries ∧ retryCond (AttemptOutcome.netError NetErr.connectTimeout)) ∧
    attemptStep wNotFound 0 0 { events := [], obs := none } 0
      = ⟨.breakLoop,
          ({ events := [], obs := none } : Trace).emit (.errorOccurred (httpErrMsg 404)),
          2, 1⟩ ∧
    attemptStep wServerError 3 0 { events := [], obs := none } 0
      = ⟨.breakLoop,
          ({ events := [], obs := none } : Trace).emit (.errorOccurred (httpErrMsg 503)),
          2, 1⟩ :=
  ⟨claim_C5.1 wNetTimeout,
   claim_C5.2.1 wNetTimeout 0 0 { events := [], obs := none } 0 (by decide),
   claim_C5.2.2.1 wNotFound 0 0 { events := [], obs := none } 0
      { status := 404, retryAfter := none, body := [], bodyErr := none }
      rfl (by decide) (by decide) (by decide) rfl rfl,
   claim_C5.2.2.2.1 wServerError 3 0 { events := [], obs := none } 0
      { status := 503, retryAfter := none, body := [], bodyErr := none }
      rfl (by decide) (by decide) (by decide) (by decide) rfl rfl⟩

/-- C6: before a retry, the delay is exactly the Retry-After value when
the failed response carried a numeric Retry-After header (the 0.1-second
sleep loop then totals exactly that value), and otherwise
`min(10, 1.5 ^ k + jitter)`; the wait is performed in 0.1 s (HTTP branch)
or 0.2 s (network branch) increments, each preceded by an interruption
check, so a cancelled sleep stops at the first check after the request:
the flag was down before every completed increment. -/
theorem claim_C6 :
    (∀ (h : String) (a : Nat) (j : ℚ), isNumericHeader h = true →
      httpSleepSecs (some h) a j = (digitsToNat h : ℚ) ∧
      ((numIncrements (digitsToNat h : ℚ) httpSleepStep : ℚ)) * httpSleepStep
        = (digitsToNat h : ℚ)) ∧
    (∀ (a : Nat) (j : ℚ), httpSleepSecs none a j = min (10:ℚ) ((3/2:ℚ) ^ a + j)) ∧
    (∀ (h : String) (a : Nat) (j : ℚ), isNumericHeader h = false →
      httpSleepSecs (some h) a j = min (10:ℚ) ((3/2:ℚ) ^ a + j)) ∧
    (httpSleepStep = (1/10 : ℚ) ∧ netSleepStep = (1/5 : ℚ)) ∧
    (∀ (secs step : ℚ), 0 ≤ secs → 0 < step →
      secs ≤ (numIncrements secs step : ℚ) * step ∧
      ((numIncrements secs step : ℚ)) * step < secs + step) ∧
    (∀ (c : Option Nat) (n t k tEnd : Nat), sleepLoop c t n = (true, k, tEnd) →
      intr c (t + k) = true ∧ ∀ j2, j2 < k → intr c (t + j2) = false) := by
  refine ⟨?_, ?_, ?_, ⟨httpSleepStep_eq, netSleepStep_eq⟩, numIncrements_total,
    fun c n t k tEnd h => sleepLoop_cancel_spec c n t k tEnd h⟩
  · intro h a j hnum
    exact ⟨by simp [httpSleepSecs, hnum], numIncrements_exact_retry_after (digitsToNat h)⟩
  · intro a j
    simp [httpSleepSecs, backoffDelay_eq]
  · intro h a j hnum
    simp [httpSleepSecs, hnum, backoffDelay_eq]

theorem claim_C6_witness :
    httpSleepSecs (some "2") 0 0 = ((2 : Nat) : ℚ) ∧
    httpSleepSecs none 1 (mkRat 1 4) = min (10:ℚ) ((3/2:ℚ) ^ 1 + mkRat 1 4) ∧
    ((1:ℚ)) ≤ (numIncrements 1 netSleepStep : ℚ) * netSleepStep ∧
    intr (some 2) (0 + 2) = true :=
  ⟨by rw [(claim_C6.1 "2" 0 0 (by decide)).1]; decide,
   claim_C6.2.1 1 (mkRat 1 4),
   (claim_C6.2.2.2.2.1 1 netSleepStep (by norm_num) (by rw [netSleepStep_eq]; norm_num)).1,
   (claim_C6.2.2.2.2.2 (some 2) 5 0 2 3 (by decide)).1⟩

/-- C7: once the worker observes a cancellation request at any of its
checkpoints (recorded as `obs = some k`, the count of events emitted
before the observation), it emits nothing further except the single
terminal `finished`, and no `error_occurred` ever appears in the run,
regardless of how many chunks were already produced. -/
theorem claim_C7 (w : World) (k : Nat) (hobs : (runWorker w).obs = some k) :
    (runWorker w).crashed = false ∧
    (runWorker w).events.drop k = [Ev.finished] ∧
    ∀ e ∈ (runWorker w).events, e.isErr = false := by
  obtain ⟨_, _, cs, eOpt, hcr, hok, hobsE, hdrop⟩ :=
    runFrom_spec w (maxRetries+1) 0 0 { events := [], obs := none } 0 rfl
  have hobs2 : (runFrom w (maxRetries+1) 0 0 { events := [], obs := none } 0).obs = some k :=
    hobs
  obtain ⟨hcrf, hdropk⟩ := hdrop k hobs2
  have heopt : eOpt = none := hobsE (by rw [hobs2]; simp)
  have hevents := hok hcrf
  rw [heopt] at hevents
  refine ⟨hcrf, hdropk, ?_⟩
  intro e he
  have he2 : e ∈ (runFrom w (maxRetries+1) 0 0 { events := [], obs := none } 0).events := he
  rw [hevents] at he2
  simp [optErrEvents] at he2
  rcases he2 with ⟨c2, _, rfl⟩ | rfl <;> rfl

theorem claim_C7_witness :
    (runWorker wCancelImmediate).crashed = false ∧
    (runWorker wCancelImmediate).events.drop 0 = [Ev.finished] :=
  ⟨(claim_C7 wCancelImmediate 0 (by decide)).1,
   (claim_C7 wCancelImmediate 0 (by decide)).2.1⟩

/-- C8 (amended): within one attempt the streaming loop delivers exactly
the chunks the stream produces, in order, each once (stated without
cancellation, over any well-formed body); and every non-crashed run
delivers all its chunk events before the terminal events - the event
sequence is chunks, then at most one error, then the single `finished`.
Across a retried mid-stream transient failure, however, the new attempt
re-streams from the beginning, so the same content is delivered twice
(see the counterexample), which refutes the frozen never-duplicated
wording. -/
theorem claim_C8 :
    (∀ (be : Option NetErr) (ls : List StreamLine) (t : Nat) (tr : Trace),
      wellFormedBody ls = true →
      (streamLines none be ls t tr).2.1.events
        = tr.events ++ (producedChunks ls).map Ev.chunk) ∧
    (∀ w : World, (runWorker w).crashed = false →
      ∃ (cs : List String) (eOpt : Option String),
        (runWorker w).events = cs.map Ev.chunk ++ optErrEvents eOpt ++ [Ev.finished]) := by
  refine ⟨streamLines_order, ?_⟩
  intro w hcr
  obtain ⟨_, _, cs, eOpt, hcrash, hok, _, _⟩ :=
    runFrom_spec w (maxRetries+1) 0 0 { events := [], obs := none } 0 rfl
  have hcr2 : (runFrom w (maxRetries+1) 0 0 { events := [], obs := none } 0).crashed = false :=
    hcr
  exact ⟨cs, eOpt, by simpa using hok hcr2⟩

/-- C8 counterexample: attempt 0 streams the chunk `A` and then the body
iterator raises a connection error; the retry re-streams `A` from the
beginning, so the consumer receives the chunk `A` twice although each
single stream produced it once. -/
theorem claim_C8_counterexample :
    (runWorker wDupStream).events = [Ev.chunk "A", Ev.chunk "A", Ev.finished] ∧
    (runWorker wDupStream).events.count (Ev.chunk "A") = 2 := by
  decide

theorem claim_C8_witness :
    (streamLines none none [StreamLine.record "Hel" false, StreamLine.record "lo" true] 0
        { events := [], obs := none }).2.1.events
      = [Ev.chunk "Hel", Ev.chunk "lo"] ∧
    ∃ (cs : List String) (eOpt : Option String),
      (runWorker wSingleChunk).events = cs.map Ev.chunk ++ optErrEvents eOpt ++ [Ev.finished] :=
  ⟨by rw [claim_C8.1 none [StreamLine.record "Hel" false, StreamLine.record "lo" true] 0
      { events := [], obs := none } (by decide)]; decide,
   claim_C8.2 wSingleChunk (by decide)⟩

/-- C9 (code bug, evaluated at the failing input): a single malformed
stream line makes `json.loads` raise an exception no handler catches; the
run dies after the chunks already emitted, with NO terminal `finished`
and no `error_occurred` - the worker reaches no terminal event at all. -/
theorem claim_C9_bug :
    runWorker wMalformedLine
      = { events := [Ev.chunk "ok"], obs := none, crashed := true, attemptsMade := 1 } ∧
    Ev.finished ∉ (runWorker wMalformedLine).events ∧
    ∀ e ∈ (runWorker wMalformedLine).events, e.isErr = false := by
  decide

/-- C10: `run_refine_generation` bumps `current_generation` and clears the
refined-result area, but the chunk and error callbacks of refine workers
carry no generation guard: a refine chunk appends to the refined-result
area of ANY state (its effect never consults a generation), an error
always overwrites it, and in a concrete trace a chunk arriving after the
refine was superseded by a second refine still lands in the new refined
result. -/
theorem claim_C10 :
    (∀ (s : OrchState) (txt : String), strip txt ≠ "" →
      (runRefineGeneration s txt).currentGeneration = s.currentGeneration + 1 ∧
      (runRefineGeneration s txt).refineText = "") ∧
    (∀ (s : OrchState) (c : String),
      (applyRefineChunk s c).refineText = s.refineText ++ c ∧
      (applyRefineChunk s c).currentGeneration = s.currentGeneration ∧
      (applyRefineChunk s c).modeGenerations = s.modeGenerations) ∧
    (∀ (s : OrchState) (msg : String),
      (applyRefineError s msg).refineText = "Error: " ++ msg) ∧
    ((runTrace "hello" [.refineReq "a", .refineReq "b", .refineChunk "X"]).map
        (fun s => (s.refineText, s.liveRefine, s.currentGeneration)) = some ("X", 2, 2)) := by
  refine ⟨?_, ?_, ?_, by decide⟩
  · intro s txt h
    unfold runRefineGeneration
    rw [if_neg h]
    exact ⟨rfl, rfl⟩
  · intro s c
    exact ⟨rfl, rfl, rfl⟩
  · intro s msg
    rfl

theorem claim_C10_witness :
    (runRefineGeneration (initState "z") "abc").currentGeneration = 1 ∧
    (runRefineGeneration (initState "z") "abc").refineText = "" ∧
    (applyRefineChunk (initState "z") "X").refineText = "X" :=
  ⟨(claim_C10.1 (initState "z") "abc" (by decide)).1,
   (claim_C10.1 (initState "z") "abc" (by decide)).2,
   (claim_C10.2.1 (initState "z") "X").1⟩
